import Mathlib

/-!
# Verification of the chroma-auditor orphan reconciler

Shallow embedding of the orphan-reconciliation core of the repository:
the ChromaCollectionManager of src/bonus/cleanup_chroma.py and the
delete_entries reset path of src/chroma-auditor.py.

Modelling conventions:
* Python strings are Lean String values; str operations (replace, rstrip)
  are embedded on List Char with the same left-to-right, non-overlapping
  semantics as CPython.
* The external world is a SysState value: the collections the chromadb
  client reports, the rows the sqlite VECTOR-segment join would return,
  whether that sqlite open+query succeeds, and the directory listing of
  the storage root.
* Calls that may raise (shutil.rmtree, client.delete_collection, ...)
  take a Bool oracle saying whether the call succeeds; a False oracle
  models the call raising an exception at that point.
-/

set_option autoImplicit false

/-! ## String munging

cleanup_chroma.py line 66 / 118 / 145:
str(col).replace('Collection(name=', '').rstrip(')').
-/

/-- The literal pattern removed by the Python replace call. -/
def collPat : List Char := "Collection(name=".data

/-- One-character-at-a-time scan implementing CPython
str.replace(pat, '') for the fixed pattern collPat: at each position,
if the pattern starts here, skip its characters (the Nat counter counts
the pattern characters still to be skipped) and continue after it;
otherwise keep the character.  Matches are non-overlapping and taken
left to right, exactly as CPython does. -/
def stripAux : Nat → List Char → List Char
  | _, [] => []
  | k + 1, _ :: cs => stripAux k cs
  | 0, c :: cs =>
    if collPat.isPrefixOf (c :: cs) then stripAux (collPat.length - 1) cs
    else c :: stripAux 0 cs

/-- str.replace('Collection(name=', '') on the character list. -/
def stripCollPat (l : List Char) : List Char := stripAux 0 l

/-- str.rstrip(')'): remove every trailing right-parenthesis character. -/
def rstripParen (l : List Char) : List Char :=
  (l.reverse.dropWhile (fun c => c == ')')).reverse

/-- The name-cleaning expression the scripts apply to a stringified
collection: str(col).replace('Collection(name=', '').rstrip(')'). -/
def cleanName (s : String) : String :=
  String.mk (rstripParen (stripCollPat s.data))

/-- str(col) for a chromadb Collection object with the given name. -/
def displayStr (name : String) : String :=
  "Collection(name=" ++ name ++ ")"

/-! ## System state -/

/-- State of the storage root and its index at the instant an operation
runs.  collections: names of the live collections as the chromadb client
reports them.  segRows: the (collection name, segment id) rows the sqlite
query SELECT c.name, s.id FROM segments s JOIN collections c ... WHERE
s.scope = 'VECTOR' would return, in query order.  indexOk: whether
opening and querying chroma.sqlite3 succeeds (False models the except
branch: missing table, schema mismatch, locked file, ...).  listing: the
immediate entries of the storage root as (name, is-directory) pairs. -/
structure SysState where
  collections : List String
  segRows : List (String × String)
  indexOk : Bool
  listing : List (String × Bool)

/-! ## _get_collection_uuid_mapping (cleanup_chroma.py lines 16-36) -/

/-- Result of one _get_collection_uuid_mapping call: the returned dict
(as its underlying row list) plus the connection lifecycle facts.
connOpened: sqlite3.connect ran (line 19; it succeeds even for a missing
file, creating an empty database).  connClosed: the conn.close() on line
31 was reached.  The except branch (lines 34-36) logs and returns the
empty dict without closing: there is no finally block. -/
structure MappingCall where
  mapping : List (String × String)
  connOpened : Bool
  connClosed : Bool
  deriving DecidableEq, Repr

/-- _get_collection_uuid_mapping with its connection lifecycle.  On
query success the row list is returned (the dict comprehension on
line 30 is modelled by keeping the rows and giving dict lookups
last-binding-wins semantics, see dictGet); on failure the handler
returns the empty mapping. -/
def getCollectionUuidMappingFull (s : SysState) : MappingCall :=
  if s.indexOk then { mapping := s.segRows, connOpened := true, connClosed := true }
  else { mapping := [], connOpened := true, connClosed := false }

/-- The value _get_collection_uuid_mapping returns. -/
def getCollectionUuidMapping (s : SysState) : List (String × String) :=
  (getCollectionUuidMappingFull s).mapping

/-- dict(rows).get(k, d): in a Python dict comprehension a later row
with the same key overwrites an earlier one, so lookup finds the last
row whose first component is the key. -/
def dictGet (rows : List (String × String)) (k d : String) : String :=
  match rows.reverse.find? (fun r => r.1 == k) with
  | some r => r.2
  | none => d

/-- dict(rows).get(k): as dictGet but returning none when absent. -/
def dictGetOpt (rows : List (String × String)) (k : String) : Option String :=
  (rows.reverse.find? (fun r => r.1 == k)).map (fun r => r.2)

/-! ## _get_all_uuid_directories (cleanup_chroma.py lines 38-46) -/

/-- The candidate test on line 44: os.path.isdir(item_path) and
len(item) >= 32 and "-" in item. -/
def isUuidDirEntry (e : String × Bool) : Bool :=
  e.2 && decide (32 ≤ e.1.length) && e.1.data.contains '-'

/-- The directory names passing the candidate filter, in listing order. -/
def uuidDirsOf (l : List (String × Bool)) : List String :=
  (l.filter isUuidDirEntry).map Prod.fst

/-- _get_all_uuid_directories. -/
def getAllUuidDirectories (s : SysState) : List String :=
  uuidDirsOf s.listing

/-! ## list_collections / list_collections_with_uuids (lines 48-78) -/

/-- list_collections: [str(col) for col in client.list_collections()]. -/
def listCollections (s : SysState) : List String :=
  s.collections.map displayStr

/-- The loop of list_collections_with_uuids (lines 64-75): for each
stringified collection, clean the name, look its uuid up in the mapping
with default "Unknown", record the info pair, and remove that uuid from
the remaining directory list if present (all_uuid_dirs.remove(uuid)
guarded by the membership test). -/
def lcwuAux (mapping : List (String × String)) :
    List String → List String → List (String × String) × List String
  | [], dirs => ([], dirs)
  | c :: cs, dirs =>
    let clean := cleanName c
    let uuid := dictGet mapping clean "Unknown"
    let rest := lcwuAux mapping cs (if dirs.contains uuid then dirs.erase uuid else dirs)
    ((clean, uuid) :: rest.1, rest.2)

/-- list_collections_with_uuids: returns (collection_info, orphans). -/
def list_collections_with_uuids (s : SysState) :
    List (String × String) × List String :=
  lcwuAux (getCollectionUuidMapping s) (listCollections s) (getAllUuidDirectories s)

/-- The uuid fields of the returned collection_info list. -/
def liveInfoUuids (s : SysState) : List String :=
  (list_collections_with_uuids s).1.map Prod.snd

/-- The segment ids the index query returned (empty when it failed). -/
def returnedSegIds (s : SysState) : List String :=
  (getCollectionUuidMapping s).map Prod.snd

/-! ## delete_orphaned_uuid_dirs (lines 149-163) -/

/-- The deletion loop: for each orphan directory, try shutil.rmtree;
on success append it to deleted, on an exception log it and continue.
Returns (deleted, logged-failures), both in loop order. -/
def orphanLoop (rmOk : String → Bool) : List String → List String × List String
  | [] => ([], [])
  | d :: ds =>
    let r := orphanLoop rmOk ds
    if rmOk d then (d :: r.1, r.2) else (r.1, d :: r.2)

/-- delete_orphaned_uuid_dirs: recompute the orphan set fresh, run the
removal loop, return (len(deleted), deleted). -/
def delete_orphaned_uuid_dirs (s : SysState) (rmOk : String → Bool) :
    Nat × List String :=
  let orphans := (list_collections_with_uuids s).2
  let deleted := (orphanLoop rmOk orphans).1
  (deleted.length, deleted)

/-- The directories whose removal raised and was logged (line 161). -/
def orphanErrors (s : SysState) (rmOk : String → Bool) : List String :=
  (orphanLoop rmOk (list_collections_with_uuids s).2).2

/-- The filesystem after a delete_orphaned_uuid_dirs call: the removed
directories disappear from the storage-root listing; the index and the
collection store are untouched. -/
def afterDeleteOrphans (s : SysState) (rmOk : String → Bool) : SysState :=
  { s with listing :=
      s.listing.filter (fun e => !((delete_orphaned_uuid_dirs s rmOk).2.contains e.1)) }

/-! ## delete_collection (cleanup_chroma.py lines 114-138) -/

/-- os.path.exists of a storage-root entry with the given name. -/
def dirPresent (s : SysState) (d : String) : Bool :=
  s.listing.any (fun e => e.1 == d)

/-- Outcome of one delete_collection call: the Bool the function
returns, whether client.delete_collection completed (the metadata half),
and whether shutil.rmtree completed. -/
structure DeleteCollectionCall where
  ret : Bool
  metaDeleted : Bool
  dirRemoved : Bool
  deriving DecidableEq, Repr

/-- delete_collection: clean the name, read the uuid mapping, delete the
collection through the API (apiOk false models that call raising), then
if a uuid was found (Python truthiness: non-None and non-empty) and the
path exists, rmtree it (rmOk false models rmtree raising).  The whole
body sits in a single try/except returning False, so any exception
yields ret = false with no rollback of the steps already performed. -/
def delete_collection (s : SysState) (cname : String) (apiOk : Bool)
    (rmOk : String → Bool) : DeleteCollectionCall :=
  let name := cleanName cname
  let uuidDir := dictGetOpt (getCollectionUuidMapping s) name
  if !apiOk then { ret := false, metaDeleted := false, dirRemoved := false }
  else
    match uuidDir with
    | some u =>
      if !u.isEmpty && dirPresent s u then
        if rmOk u then { ret := true, metaDeleted := true, dirRemoved := true }
        else { ret := false, metaDeleted := true, dirRemoved := false }
      else { ret := true, metaDeleted := true, dirRemoved := false }
    | none => { ret := true, metaDeleted := true, dirRemoved := false }

/-! ## delete_entries (chroma-auditor.py lines 773-871) -/

/-- How a delete_entries call ends: the early return for an empty
selection, the reset status (line 835), the fallback status (line 841),
the subset-deletion status (line 845), or the outer except returning an
error status (line 871). -/
inductive EntriesOutcome where
  | noneSelected
  | resetDone
  | fallbackDone
  | subsetDone
  | errorReturn
  deriving DecidableEq, Repr

/-- Success oracles for the steps of delete_entries.  lookupOk: the
sqlite connect+query for the segment id (lines 805-817).  apiDeleteOk:
client.delete_collection (line 820).  rmOk: shutil.rmtree (line 828).
createOk: client.create_collection (line 832).  entryDeleteOk:
collection.delete(ids=...) on a still-present collection. -/
structure ResetOracles where
  lookupOk : Bool
  apiDeleteOk : Bool
  rmOk : Bool
  createOk : Bool
  entryDeleteOk : Bool

/-- The per-collection segment query of delete_entries (lines 809-816):
fetchone returns the first row matching the name, if any. -/
def lookupSegId (s : SysState) (name : String) : Option String :=
  ((s.segRows.filter (fun r => r.1 == name)).head?).map (fun r => r.2)

/-- The fallback collection.delete(ids=selected_ids) of line 840,
called through the collection handle taken at the start of the call.
If the collection is still present the call succeeds or raises per the
oracle; if the collection was already deleted through the API the stale
handle raises (the chromadb client cannot delete entries of a deleted
collection), and the exception reaches the outer except of line 868,
which returns an error status.  The pair is (outcome, contents of the
collection afterwards; none = the collection is absent). -/
def runEntryFallback (present : Bool) (entries selected : List String)
    (ok : Bool) : EntriesOutcome × Option (List String) :=
  if present then
    if ok then (.fallbackDone, some (entries.filter (fun e => !(selected.contains e))))
    else (.errorReturn, some entries)
  else (.errorReturn, none)

/-- Whether the reset path reaches the shutil.rmtree call: the lookup
returned a row with a truthy (non-empty) id and the path exists
(lines 824-828: if uuid_dir and uuid_dir[0], then if os.path.exists). -/
def rmtreeAttempted (s : SysState) (name : String) : Bool :=
  match lookupSegId s name with
  | some uid => !uid.isEmpty && dirPresent s uid
  | none => false

/-- The reset branch of delete_entries (lines 798-841), taken when every
entry is selected: look up the VECTOR segment id, delete the collection
through the API, rmtree its directory when one was found (non-empty id,
path exists), recreate the collection; any exception in those steps
falls into the except of line 837 which runs the fallback deletion. -/
def resetBranch (s : SysState) (name : String) (entries selected : List String)
    (o : ResetOracles) : EntriesOutcome × Option (List String) :=
  if !o.lookupOk then runEntryFallback true entries selected o.entryDeleteOk
  else if !o.apiDeleteOk then runEntryFallback true entries selected o.entryDeleteOk
  else if rmtreeAttempted s name && !o.rmOk then
    runEntryFallback false entries selected o.entryDeleteOk
  else if o.createOk then (.resetDone, some [])
  else runEntryFallback false entries selected o.entryDeleteOk

/-- delete_entries: early return when nothing is selected; the reset
branch when the selection covers the whole collection (len(selected_ids)
>= total_count); otherwise the plain collection.delete(ids=...) path. -/
def delete_entries (s : SysState) (name : String) (entries selected : List String)
    (o : ResetOracles) : EntriesOutcome × Option (List String) :=
  if selected.isEmpty then (.noneSelected, some entries)
  else if entries.length ≤ selected.length then resetBranch s name entries selected o
  else if o.entryDeleteOk then
    (.subsetDone, some (entries.filter (fun e => !(selected.contains e))))
  else (.errorReturn, some entries)

/-! ## Proof-side normal form for the orphan computation -/

/-- Erase the keys from the directory list one after the other; the
normal form of the directory side of the lcwuAux loop. -/
def eraseAll (dirs : List String) (keys : List String) : List String :=
  keys.foldl List.erase dirs

/-- The uuid looked up for one stringified collection. -/
def lookedUpUuid (mapping : List (String × String)) (c : String) : String :=
  dictGet mapping (cleanName c) "Unknown"

/-! ## Concrete states used by witnesses and counterexamples -/

/-- A 36-character segment id with hyphens, as chroma produces. -/
def uA : String := "11111111-2222-3333-4444-555555555555"

/-- A second segment id. -/
def uB : String := "66666666-7777-8888-9999-000000000000"

/-- A third segment id. -/
def uC : String := "aaaaaaaa-bbbb-cccc-dddd-eeeeeeeeeeee"

/-- A healthy state: one live collection docs with segment uA, plus the
orphan directory uB and a non-candidate entry short. -/
def exLive : SysState :=
  { collections := ["docs"]
  , segRows := [("docs", uA)]
  , indexOk := true
  , listing := [(uA, true), (uB, true), ("short", true)] }

/-- The same world as exLive except the sqlite query fails. -/
def exIdxFail : SysState :=
  { collections := ["docs"]
  , segRows := [("docs", uA)]
  , indexOk := false
  , listing := [(uA, true)] }

/-- No live collections, two orphan directories. -/
def exTwoOrphans : SysState :=
  { collections := []
  , segRows := []
  , indexOk := true
  , listing := [(uB, true), (uC, true)] }

/-- An rmtree oracle that fails exactly on uB. -/
def rmFailOnB : String → Bool := fun d => !(d == uB)

/-- Oracles under which every step of a delete_entries reset succeeds. -/
def oAllOk : ResetOracles :=
  { lookupOk := true, apiDeleteOk := true, rmOk := true,
    createOk := true, entryDeleteOk := true }

/-- Oracles under which only the rmtree of the reset sequence raises. -/
def oRmFail : ResetOracles :=
  { lookupOk := true, apiDeleteOk := true, rmOk := false,
    createOk := true, entryDeleteOk := true }

/-! ## Helper lemmas about the loop normal forms -/

theorem eraseGuard (dirs : List String) (u : String) :
    (if dirs.contains u then dirs.erase u else dirs) = dirs.erase u := by
  by_cases h : u ∈ dirs
  · simp [h]
  · simp [h, List.erase_of_not_mem h]

theorem lcwuAux_fst (m : List (String × String)) (cs dirs : List String) :
    (lcwuAux m cs dirs).1 = cs.map (fun c => (cleanName c, lookedUpUuid m c)) := by
  induction cs generalizing dirs with
  | nil => rfl
  | cons c cs ih => simp [lcwuAux, ih, lookedUpUuid]

theorem lcwuAux_snd (m : List (String × String)) (cs dirs : List String) :
    (lcwuAux m cs dirs).2 = eraseAll dirs (cs.map (lookedUpUuid m)) := by
  induction cs generalizing dirs with
  | nil => rfl
  | cons c cs ih =>
    have h1 : (lcwuAux m (c :: cs) dirs).2
        = (lcwuAux m cs (if dirs.contains (dictGet m (cleanName c) "Unknown") then
            dirs.erase (dictGet m (cleanName c) "Unknown") else dirs)).2 := rfl
    rw [h1, eraseGuard, ih]
    rfl

theorem eraseAll_nil (dirs : List String) : eraseAll dirs [] = dirs := rfl

theorem eraseAll_cons (dirs : List String) (k : String) (ks : List String) :
    eraseAll dirs (k :: ks) = eraseAll (dirs.erase k) ks := rfl

theorem eraseAll_sublist (dirs keys : List String) :
    List.Sublist (eraseAll dirs keys) dirs := by
  induction keys generalizing dirs with
  | nil => exact List.Sublist.refl dirs
  | cons k ks ih =>
    rw [eraseAll_cons]
    exact (ih (dirs.erase k)).trans (List.erase_sublist k dirs)

theorem eraseFilterComm (l : List String) (p : String → Bool) (u : String) :
    (l.filter p).erase u = (l.erase u).filter p := by
  induction l with
  | nil => rfl
  | cons a t ih =>
    by_cases hau : a = u
    · subst hau
      by_cases hp : p a
      · simp [List.filter_cons, hp, List.erase_cons]
      · have hnm : (t.filter p).erase a = t.filter p :=
          List.erase_of_not_mem (fun hmem => hp (List.mem_filter.mp hmem).2)
        simp [List.filter_cons, hp, List.erase_cons, hnm]
    · by_cases hp : p a <;>
        simp [List.filter_cons, hp, List.erase_cons, hau, ih]

theorem eraseAll_filter (dirs : List String) (p : String → Bool) (keys : List String) :
    eraseAll (dirs.filter p) keys = (eraseAll dirs keys).filter p := by
  induction keys generalizing dirs with
  | nil => rfl
  | cons k ks ih => rw [eraseAll_cons, eraseAll_cons, eraseFilterComm, ih]

theorem nodup_mem_erase (l : List String) (hl : l.Nodup) (u k : String) :
    u ∈ l.erase k ↔ u ∈ l ∧ u ≠ k := by
  induction l with
  | nil => simp
  | cons a t ih =>
    have hat : a ∉ t := (List.nodup_cons.mp hl).1
    have ht : t.Nodup := (List.nodup_cons.mp hl).2
    by_cases hak : a = k
    · subst hak
      simp [List.erase_cons]
      constructor
      · intro hu
        exact ⟨Or.inr hu, fun he => hat (he ▸ hu)⟩
      · rintro ⟨hu | hu, hne⟩
        · exact absurd hu hne
        · exact hu
    · simp [List.erase_cons, hak, ih ht]
      constructor
      · rintro (h | ⟨h1, h2⟩)
        · exact ⟨Or.inl h, h ▸ hak⟩
        · exact ⟨Or.inr h1, h2⟩
      · rintro ⟨h | h, hne⟩
        · exact Or.inl h
        · exact Or.inr ⟨h, hne⟩

theorem nodup_erase (l : List String) (hl : l.Nodup) (k : String) :
    (l.erase k).Nodup :=
  hl.sublist (List.erase_sublist k l)

theorem mem_eraseAll (dirs : List String) (hd : dirs.Nodup) (keys : List String) (u : String) :
    u ∈ eraseAll dirs keys ↔ u ∈ dirs ∧ ∀ k ∈ keys, k ≠ u := by
  induction keys generalizing dirs with
  | nil => simp [eraseAll_nil]
  | cons k ks ih =>
    rw [eraseAll_cons, ih (dirs.erase k) (nodup_erase dirs hd k)]
    rw [nodup_mem_erase dirs hd u k]
    constructor
    · rintro ⟨⟨h1, h2⟩, h3⟩
      exact ⟨h1, by
        intro k' hk'
        rcases List.mem_cons.mp hk' with h | h
        · exact h ▸ fun he => h2 he.symm
        · exact h3 k' h⟩
    · rintro ⟨h1, h2⟩
      refine ⟨⟨h1, fun he => h2 k (List.mem_cons_self k ks) he.symm⟩, ?_⟩
      intro k' hk'
      exact h2 k' (List.mem_cons_of_mem k hk')

theorem orphanLoop_eq (rmOk : String → Bool) (l : List String) :
    orphanLoop rmOk l = (l.filter rmOk, l.filter (fun d => !(rmOk d))) := by
  induction l with
  | nil => rfl
  | cons d ds ih =>
    by_cases h : rmOk d <;> simp [orphanLoop, ih, List.filter_cons, h]

theorem filter_of_all (l : List String) (p : String → Bool) (h : ∀ a ∈ l, p a = true) :
    l.filter p = l := by
  induction l with
  | nil => rfl
  | cons a t ih =>
    simp [List.filter_cons, h a (List.mem_cons_self a t),
      ih (fun b hb => h b (List.mem_cons_of_mem a hb))]

theorem filter_of_none (l : List String) (p : String → Bool) (h : ∀ a ∈ l, p a = false) :
    l.filter p = [] := by
  induction l with
  | nil => rfl
  | cons a t ih =>
    simp [List.filter_cons, h a (List.mem_cons_self a t),
      ih (fun b hb => h b (List.mem_cons_of_mem a hb))]

theorem nodup_erase_eq_filter (l : List String) (hl : l.Nodup) (k : String) :
    l.erase k = l.filter (fun d => !(d == k)) := by
  induction l with
  | nil => rfl
  | cons a t ih =>
    have hat : a ∉ t := (List.nodup_cons.mp hl).1
    by_cases hak : a = k
    · subst hak
      have hrest : t.filter (fun d => !(d == a)) = t :=
        filter_of_all t _ (fun b hb => by
          have : b ≠ a := fun he => hat (he ▸ hb)
          simp [this])
      simp [List.erase_cons, List.filter_cons, hrest]
    · simp [List.erase_cons, List.filter_cons, hak, ih (List.nodup_cons.mp hl).2]

theorem nodup_filter_single (l : List String) (hl : l.Nodup) (k : String) (hk : k ∈ l) :
    l.filter (fun d => d == k) = [k] := by
  induction l with
  | nil => cases hk
  | cons a t ih =>
    have hat : a ∉ t := (List.nodup_cons.mp hl).1
    have ht : t.Nodup := (List.nodup_cons.mp hl).2
    by_cases hak : a = k
    · have hrest : t.filter (fun d => d == k) = [] :=
        filter_of_none t _ (fun b hb => by
          have hbk : b ≠ k := fun he => hat (by rw [hak, ← he]; exact hb)
          simp [hbk])
      simp [List.filter_cons, hak, hrest]
    · have hkt : k ∈ t := by
        rcases List.mem_cons.mp hk with h | h
        · exact absurd h.symm hak
        · exact h
      simp [List.filter_cons, hak, ih ht hkt]

/-! ## dict lookup lemmas -/

theorem find?_key_of_mem (rows : List (String × String))
    (hk : (rows.map Prod.fst).Nodup) (n u : String) (h : (n, u) ∈ rows) :
    rows.find? (fun r => r.1 == n) = some (n, u) := by
  induction rows with
  | nil => cases h
  | cons r t ih =>
    rw [List.map_cons] at hk
    have hr1 : r.1 ∉ t.map Prod.fst := (List.nodup_cons.mp hk).1
    have ht : (t.map Prod.fst).Nodup := (List.nodup_cons.mp hk).2
    rcases List.mem_cons.mp h with h1 | h1
    · subst h1
      simp [List.find?]
    · have hne : r.1 ≠ n := fun he => by
        have : n ∈ t.map Prod.fst := List.mem_map_of_mem Prod.fst h1
        exact hr1 (he ▸ this)
      have : (r.1 == n) = false := by simp [hne]
      simp [List.find?, this, ih ht h1]

theorem dictGet_of_mem (rows : List (String × String))
    (hk : (rows.map Prod.fst).Nodup) (n u d : String) (h : (n, u) ∈ rows) :
    dictGet rows n d = u := by
  have hrev : (rows.reverse.map Prod.fst).Nodup := by simpa using hk
  have hfind := find?_key_of_mem rows.reverse hrev n u (List.mem_reverse.mpr h)
  simp [dictGet, hfind]

theorem dictGet_default_or_mem (rows : List (String × String)) (n d : String) :
    dictGet rows n d = d ∨ dictGet rows n d ∈ rows.map Prod.snd := by
  unfold dictGet
  cases hf : rows.reverse.find? (fun r => r.1 == n) with
  | none => exact Or.inl rfl
  | some r =>
    right
    have h1 : r ∈ rows.reverse := List.mem_of_find?_eq_some hf
    exact List.mem_map_of_mem Prod.snd (List.mem_reverse.mp h1)

/-! ## candidate-directory lemmas -/

theorem mem_uuidDirsOf (l : List (String × Bool)) (dname : String) :
    dname ∈ uuidDirsOf l
      ↔ (dname, true) ∈ l ∧ 32 ≤ dname.length ∧ '-' ∈ dname.data := by
  unfold uuidDirsOf
  constructor
  · intro h
    rcases List.mem_map.mp h with ⟨e, he, hfst⟩
    rcases List.mem_filter.mp he with ⟨hel, hP⟩
    obtain ⟨nm, bb⟩ := e
    simp [isUuidDirEntry, Bool.and_eq_true, decide_eq_true_eq] at hP
    obtain ⟨⟨hb, hlen⟩, hhy⟩ := hP
    subst hb
    cases hfst
    exact ⟨hel, hlen, hhy⟩
  · rintro ⟨hel, hlen, hhy⟩
    refine List.mem_map.mpr ⟨(dname, true), List.mem_filter.mpr ⟨hel, ?_⟩, rfl⟩
    simp [isUuidDirEntry, Bool.and_eq_true, decide_eq_true_eq, hlen, hhy]

theorem uuidDirsOf_nodup (l : List (String × Bool))
    (h : (l.map Prod.fst).Nodup) : (uuidDirsOf l).Nodup :=
  h.sublist ((List.filter_sublist l).map Prod.fst)

theorem uuidDirsOf_filter (l : List (String × Bool)) (q : String → Bool) :
    uuidDirsOf (l.filter (fun e => q e.1)) = (uuidDirsOf l).filter q := by
  induction l with
  | nil => rfl
  | cons e t ih =>
    by_cases hq : q e.1 <;> by_cases hP : isUuidDirEntry e <;>
      simp [uuidDirsOf, List.filter_cons, hq, hP, ih] <;>
      simpa [uuidDirsOf] using ih

theorem unknown_not_candidate (l : List (String × Bool)) :
    "Unknown" ∉ uuidDirsOf l := by
  intro h
  have := ((mem_uuidDirsOf l "Unknown").mp h).2.1
  revert this
  decide

/-! ## orphan-computation normal forms -/

theorem orphans_eq (s : SysState) :
    (list_collections_with_uuids s).2
      = eraseAll (getAllUuidDirectories s)
          ((listCollections s).map (lookedUpUuid (getCollectionUuidMapping s))) :=
  lcwuAux_snd _ _ _

theorem info_eq (s : SysState) :
    (list_collections_with_uuids s).1
      = (listCollections s).map
          (fun c => (cleanName c, lookedUpUuid (getCollectionUuidMapping s) c)) :=
  lcwuAux_fst _ _ _

theorem orphans_sublist (s : SysState) :
    List.Sublist (list_collections_with_uuids s).2 (getAllUuidDirectories s) := by
  rw [orphans_eq]
  exact eraseAll_sublist _ _

theorem orphans_nodup (s : SysState) (h : (s.listing.map Prod.fst).Nodup) :
    (list_collections_with_uuids s).2.Nodup :=
  (uuidDirsOf_nodup s.listing h).sublist (orphans_sublist s)

theorem deleted_eq_filter (s : SysState) (rmOk : String → Bool) :
    (delete_orphaned_uuid_dirs s rmOk).2
      = (list_collections_with_uuids s).2.filter rmOk := by
  simp [delete_orphaned_uuid_dirs, orphanLoop_eq]

theorem count_eq_length (s : SysState) (rmOk : String → Bool) :
    (delete_orphaned_uuid_dirs s rmOk).1
      = (delete_orphaned_uuid_dirs s rmOk).2.length := by
  simp [delete_orphaned_uuid_dirs]

theorem errors_eq_filter (s : SysState) (rmOk : String → Bool) :
    orphanErrors s rmOk
      = (list_collections_with_uuids s).2.filter (fun d => !(rmOk d)) := by
  simp [orphanErrors, orphanLoop_eq]

theorem eraseAll_of_disjoint (dirs keys : List String)
    (h : ∀ k ∈ keys, k ∉ dirs) : eraseAll dirs keys = dirs := by
  induction keys with
  | nil => rfl
  | cons k ks ih =>
    rw [eraseAll_cons, List.erase_of_not_mem (h k (List.mem_cons_self k ks))]
    exact ih (fun k2 hk2 => h k2 (List.mem_cons_of_mem k hk2))

/-! ## Claim theorems -/

/-- C7: whenever opening or querying the index fails,
_get_collection_uuid_mapping does not propagate the exception: it
returns the empty mapping, every collection in the reconciliation gets
uuid "Unknown", and the reconciliation continues, classifying every
candidate directory as an orphan (no live mapping is known). -/
theorem C7_index_failure_degrades (s : SysState) (h : s.indexOk = false) :
    getCollectionUuidMapping s = []
    ∧ (list_collections_with_uuids s).1
        = s.collections.map (fun n => (cleanName (displayStr n), "Unknown"))
    ∧ (list_collections_with_uuids s).2 = getAllUuidDirectories s := by
  have hm : getCollectionUuidMapping s = [] := by
    simp [getCollectionUuidMapping, getCollectionUuidMappingFull, h]
  refine ⟨hm, ?_, ?_⟩
  · rw [info_eq, hm]
    rw [listCollections, List.map_map]
    rfl
  · rw [orphans_eq, hm]
    apply eraseAll_of_disjoint
    intro k hk
    rcases List.mem_map.mp hk with ⟨c, hc, hkc⟩
    have hku : k = "Unknown" := hkc.symm
    rw [hku]
    exact unknown_not_candidate s.listing

/-- C7 witness: a concrete state with a failing index query. -/
theorem C7_witness :
    exIdxFail.indexOk = false
    ∧ getCollectionUuidMapping exIdxFail = []
    ∧ (list_collections_with_uuids exIdxFail).2 = getAllUuidDirectories exIdxFail := by
  refine ⟨by decide, ?_, ?_⟩
  · exact (C7_index_failure_degrades exIdxFail (by decide)).1
  · exact (C7_index_failure_degrades exIdxFail (by decide)).2.2

/-- C8: _get_all_uuid_directories returns exactly the immediate entries
of the storage root that are directories with a name of length at least
32 containing a hyphen; an entry failing the test is never a candidate,
hence never classified as an orphan nor deleted. -/
theorem C8_candidate_filter (s : SysState) (rmOk : String → Bool) (dname : String) :
    (dname ∈ getAllUuidDirectories s
        ↔ (dname, true) ∈ s.listing ∧ 32 ≤ dname.length ∧ '-' ∈ dname.data)
    ∧ (¬(32 ≤ dname.length ∧ '-' ∈ dname.data) →
        dname ∉ getAllUuidDirectories s
        ∧ dname ∉ (list_collections_with_uuids s).2
        ∧ dname ∉ (delete_orphaned_uuid_dirs s rmOk).2) := by
  constructor
  · exact mem_uuidDirsOf s.listing dname
  · intro hbad
    have h1 : dname ∉ getAllUuidDirectories s := fun h =>
      hbad ⟨((mem_uuidDirsOf s.listing dname).mp h).2.1,
        ((mem_uuidDirsOf s.listing dname).mp h).2.2⟩
    have h2 : dname ∉ (list_collections_with_uuids s).2 := fun h =>
      h1 ((orphans_sublist s).subset h)
    refine ⟨h1, h2, fun h => ?_⟩
    rw [deleted_eq_filter] at h
    exact h2 (List.mem_filter.mp h).1

/-- C8 witness: the entry short of the concrete state fails the filter
and is never deleted. -/
theorem C8_witness :
    ¬(32 ≤ ("short" : String).length ∧ '-' ∈ ("short" : String).data)
    ∧ "short" ∉ (delete_orphaned_uuid_dirs exLive (fun _ => true)).2 := by
  refine ⟨by decide, ?_⟩
  exact ((C8_candidate_filter exLive (fun _ => true) "short").2 (by decide)).2.2

/-- C9 counterexample: on the failing-query state the connection is
opened but conn.close() is never reached, so the claim that every exit
path closes the connection is false on the code. -/
theorem C9_counterexample :
    (getCollectionUuidMappingFull exIdxFail).connOpened = true
    ∧ (getCollectionUuidMappingFull exIdxFail).connClosed = false := by
  decide

/-- C9 amended: _get_collection_uuid_mapping opens a fresh connection on
every call and closes it exactly when the query succeeds; on the
exception path the except handler returns without closing (no finally
block).  The delete_metadata function of chroma-auditor.py follows the
same pattern. -/
theorem C9_connection_scope (s : SysState) :
    (getCollectionUuidMappingFull s).connOpened = true
    ∧ ((getCollectionUuidMappingFull s).connClosed = true ↔ s.indexOk = true) := by
  by_cases h : s.indexOk <;> simp [getCollectionUuidMappingFull, h]

/-- C10: deletedCount equals the length of deletedNames, every deleted
name is in the orphan set computed at the start of the call, and the
deleted names contain no duplicates (given distinct listing names, as
os.listdir guarantees). -/
theorem C10_result_consistency (s : SysState) (rmOk : String → Bool)
    (hnd : (s.listing.map Prod.fst).Nodup) :
    (delete_orphaned_uuid_dirs s rmOk).1 = (delete_orphaned_uuid_dirs s rmOk).2.length
    ∧ (∀ d ∈ (delete_orphaned_uuid_dirs s rmOk).2, d ∈ (list_collections_with_uuids s).2)
    ∧ (delete_orphaned_uuid_dirs s rmOk).2.Nodup := by
  refine ⟨count_eq_length s rmOk, ?_, ?_⟩
  · intro d hd
    rw [deleted_eq_filter] at hd
    exact (List.mem_filter.mp hd).1
  · rw [deleted_eq_filter]
    exact (orphans_nodup s hnd).sublist (List.filter_sublist _)

/-- C10 witness at the concrete healthy state. -/
theorem C10_witness :
    (exLive.listing.map Prod.fst).Nodup
    ∧ (delete_orphaned_uuid_dirs exLive (fun _ => true)).1
        = (delete_orphaned_uuid_dirs exLive (fun _ => true)).2.length := by
  have h : (exLive.listing.map Prod.fst).Nodup := by decide
  exact ⟨h, (C10_result_consistency exLive (fun _ => true) h).1⟩

/-- C2: for every directory passing the candidate filter, the
reconciliation classifies it as an orphan iff its name is not among the
segment ids the index query returned, and equivalently the orphan set is
the candidate set minus the uuid values of the returned live mapping.
Hypotheses: the listing has distinct names (os.listdir), the returned
rows are coherent with the client listing taken in the same snapshot
(each row's collection is listed and its name survives the
display-string round trip), and no two rows share a collection name
(one VECTOR segment per collection). -/
theorem C2_soundness (s : SysState) (dname : String)
    (hnd : (s.listing.map Prod.fst).Nodup)
    (hcoh : ∀ r ∈ getCollectionUuidMapping s,
        r.1 ∈ s.collections ∧ cleanName (displayStr r.1) = r.1)
    (hkeys : ((getCollectionUuidMapping s).map Prod.fst).Nodup) :
    (dname ∈ (list_collections_with_uuids s).2
        ↔ dname ∈ getAllUuidDirectories s ∧ dname ∉ returnedSegIds s)
    ∧ (dname ∈ (list_collections_with_uuids s).2
        ↔ dname ∈ getAllUuidDirectories s ∧ dname ∉ liveInfoUuids s) := by
  have hcnd : (getAllUuidDirectories s).Nodup := uuidDirsOf_nodup s.listing hnd
  have hcore : dname ∈ (list_collections_with_uuids s).2
      ↔ dname ∈ getAllUuidDirectories s
        ∧ ∀ k ∈ (listCollections s).map (lookedUpUuid (getCollectionUuidMapping s)),
            k ≠ dname := by
    rw [orphans_eq]
    exact mem_eraseAll _ hcnd _ dname
  have hinfo : liveInfoUuids s
      = (listCollections s).map (lookedUpUuid (getCollectionUuidMapping s)) := by
    rw [liveInfoUuids, info_eq, List.map_map]
    rfl
  constructor
  · rw [hcore]
    constructor
    · rintro ⟨hcand, hall⟩
      refine ⟨hcand, fun hmem => ?_⟩
      rcases List.mem_map.mp hmem with ⟨r, hr, hval⟩
      have hcohr := hcoh r hr
      have hdisp : displayStr r.1 ∈ listCollections s :=
        List.mem_map_of_mem displayStr hcohr.1
      have hkey : lookedUpUuid (getCollectionUuidMapping s) (displayStr r.1) = dname := by
        rw [lookedUpUuid, hcohr.2]
        rw [← hval]
        exact dictGet_of_mem _ hkeys r.1 r.2 "Unknown" (by
          rw [Prod.mk.eta]
          exact hr)
      exact hall dname (hkey ▸ List.mem_map_of_mem _ hdisp) rfl
    · rintro ⟨hcand, hnotin⟩
      refine ⟨hcand, fun k hk he => ?_⟩
      subst he
      rcases List.mem_map.mp hk with ⟨c, hc, hkc⟩
      rcases dictGet_default_or_mem (getCollectionUuidMapping s) (cleanName c) "Unknown"
        with hdef | hmem
      · rw [lookedUpUuid] at hkc
        rw [hdef] at hkc
        rw [← hkc] at hcand
        exact unknown_not_candidate s.listing hcand
      · rw [lookedUpUuid] at hkc
        rw [hkc] at hmem
        exact hnotin hmem
  · rw [hcore, hinfo]
    constructor
    · rintro ⟨hcand, hall⟩
      exact ⟨hcand, fun hmem => hall dname hmem rfl⟩
    · rintro ⟨hcand, hnotin⟩
      exact ⟨hcand, fun k hk he => hnotin (he ▸ hk)⟩

/-- C2 witness at the concrete healthy state and orphan directory uB. -/
theorem C2_witness :
    (exLive.listing.map Prod.fst).Nodup
    ∧ (uB ∈ (list_collections_with_uuids exLive).2
        ↔ uB ∈ getAllUuidDirectories exLive ∧ uB ∉ returnedSegIds exLive) := by
  have h1 : (exLive.listing.map Prod.fst).Nodup := by decide
  have h2 : ∀ r ∈ getCollectionUuidMapping exLive,
      r.1 ∈ exLive.collections ∧ cleanName (displayStr r.1) = r.1 := by decide
  have h3 : ((getCollectionUuidMapping exLive).map Prod.fst).Nodup := by decide
  exact ⟨h1, (C2_soundness exLive uB h1 h2 h3).1⟩

/-- C1 counterexample: the live collection docs has its VECTOR segment
id uA recorded in segRows and its directory on disk, yet in the state
where the sqlite query fails (a state of the index the claim quantifies
over) delete_orphaned_uuid_dirs computes uA as an orphan and removes it:
the claimed exclusion does not hold for every state of the index. -/
theorem C1_counterexample :
    ("docs", uA) ∈ exIdxFail.segRows
    ∧ "docs" ∈ exIdxFail.collections
    ∧ uA ∈ (list_collections_with_uuids exIdxFail).2
    ∧ uA ∈ (delete_orphaned_uuid_dirs exIdxFail (fun _ => true)).2 := by
  decide

/-- C1 amended: provided the index query succeeds, the live collection
appears in the client listing with a name that survives the
display-string round trip, collection names are unique among the rows,
and the listing names are distinct, the orphan set excludes the live
segment id and delete_orphaned_uuid_dirs never removes its directory. -/
theorem C1_no_live_deletion (s : SysState) (rmOk : String → Bool) (n u : String)
    (hidx : s.indexOk = true)
    (hrow : (n, u) ∈ s.segRows)
    (hkeys : (s.segRows.map Prod.fst).Nodup)
    (hlive : n ∈ s.collections)
    (hname : cleanName (displayStr n) = n)
    (hnd : (s.listing.map Prod.fst).Nodup) :
    u ∉ (list_collections_with_uuids s).2
    ∧ u ∉ (delete_orphaned_uuid_dirs s rmOk).2 := by
  have hm : getCollectionUuidMapping s = s.segRows := by
    simp [getCollectionUuidMapping, getCollectionUuidMappingFull, hidx]
  have hcnd : (getAllUuidDirectories s).Nodup := uuidDirsOf_nodup s.listing hnd
  have hkey : lookedUpUuid (getCollectionUuidMapping s) (displayStr n) = u := by
    rw [lookedUpUuid, hname, hm]
    exact dictGet_of_mem s.segRows hkeys n u "Unknown" hrow
  have hmemk : u ∈ (listCollections s).map (lookedUpUuid (getCollectionUuidMapping s)) :=
    hkey ▸ List.mem_map_of_mem _ (List.mem_map_of_mem displayStr hlive)
  have h1 : u ∉ (list_collections_with_uuids s).2 := by
    intro hu
    rw [orphans_eq] at hu
    exact ((mem_eraseAll _ hcnd _ u).mp hu).2 u hmemk rfl
  refine ⟨h1, fun hu => h1 ?_⟩
  rw [deleted_eq_filter] at hu
  exact (List.mem_filter.mp hu).1

/-- C1 witness: in the healthy concrete state the live directory uA is
never computed as an orphan nor deleted. -/
theorem C1_witness :
    (("docs", uA) ∈ exLive.segRows ∧ "docs" ∈ exLive.collections
      ∧ cleanName (displayStr "docs") = "docs")
    ∧ uA ∉ (delete_orphaned_uuid_dirs exLive (fun _ => true)).2 := by
  refine ⟨by decide, ?_⟩
  exact (C1_no_live_deletion exLive (fun _ => true) "docs" uA (by decide) (by decide)
    (by decide) (by decide) (by decide) (by decide)).2

/-- C3: with the index and the surviving directories unchanged between
the two calls, a second delete_orphaned_uuid_dirs call right after a
first one that deleted a non-empty set deletes nothing: it returns
count 0 and the empty name list, because the orphan set is recomputed
fresh against the post-deletion filesystem. -/
theorem C3_idempotent (s : SysState) (rmOk : String → Bool)
    (hnd : (s.listing.map Prod.fst).Nodup)
    (hfirst : (delete_orphaned_uuid_dirs s rmOk).2 ≠ []) :
    delete_orphaned_uuid_dirs (afterDeleteOrphans s rmOk) rmOk = (0, []) := by
  have hc : getAllUuidDirectories (afterDeleteOrphans s rmOk)
      = (getAllUuidDirectories s).filter
          (fun d => !((delete_orphaned_uuid_dirs s rmOk).2.contains d)) := by
    show uuidDirsOf
        (s.listing.filter (fun e => !((delete_orphaned_uuid_dirs s rmOk).2.contains e.1))) = _
    exact uuidDirsOf_filter s.listing
      (fun d => !((delete_orphaned_uuid_dirs s rmOk).2.contains d))
  have e1 : (list_collections_with_uuids (afterDeleteOrphans s rmOk)).2
      = eraseAll (getAllUuidDirectories (afterDeleteOrphans s rmOk))
          ((listCollections s).map (lookedUpUuid (getCollectionUuidMapping s))) :=
    orphans_eq (afterDeleteOrphans s rmOk)
  have horph : (list_collections_with_uuids (afterDeleteOrphans s rmOk)).2
      = (list_collections_with_uuids s).2.filter
          (fun d => !((delete_orphaned_uuid_dirs s rmOk).2.contains d)) := by
    rw [e1, hc, eraseAll_filter, ← orphans_eq]
  have h2 : (delete_orphaned_uuid_dirs (afterDeleteOrphans s rmOk) rmOk).2 = [] := by
    rw [deleted_eq_filter, horph]
    apply filter_of_none
    intro d hd
    rcases List.mem_filter.mp hd with ⟨hdo, hdp⟩
    simp only [Bool.not_eq_true'] at hdp
    by_cases hrm : rmOk d = true
    · exfalso
      have hdel : d ∈ (delete_orphaned_uuid_dirs s rmOk).2 := by
        rw [deleted_eq_filter]
        exact List.mem_filter.mpr ⟨hdo, hrm⟩
      have : (delete_orphaned_uuid_dirs s rmOk).2.contains d = true := by
        simpa using hdel
      rw [this] at hdp
      cases hdp
    · simpa using hrm
  have h1 : (delete_orphaned_uuid_dirs (afterDeleteOrphans s rmOk) rmOk).1 = 0 := by
    rw [count_eq_length, h2]
    rfl
  rw [Prod.ext_iff]
  exact ⟨h1, h2⟩

/-- C3 witness: in the healthy concrete state the first call deletes uB
and the immediately following call deletes nothing. -/
theorem C3_witness :
    (exLive.listing.map Prod.fst).Nodup
    ∧ (delete_orphaned_uuid_dirs exLive (fun _ => true)).2 ≠ []
    ∧ delete_orphaned_uuid_dirs (afterDeleteOrphans exLive (fun _ => true)) (fun _ => true)
        = (0, []) := by
  have h1 : (exLive.listing.map Prod.fst).Nodup := by decide
  have h2 : (delete_orphaned_uuid_dirs exLive (fun _ => true)).2 ≠ [] := by decide
  exact ⟨h1, h2, C3_idempotent exLive (fun _ => true) h1 h2⟩

/-- C4 counterexample: metadata deletion succeeds and rmtree raises, yet
delete_collection returns False, not True as the claim states: the
single try/except around the whole body converts the directory-removal
exception into a False return. -/
theorem C4_counterexample :
    (delete_collection exLive "docs" true (fun _ => false)).metaDeleted = true
    ∧ (delete_collection exLive "docs" true (fun _ => false)).ret = false := by
  decide

/-- C4 amended: when the metadata deletion succeeds, a directory is
found and present, and its recursive removal raises, delete_collection
catches and logs the exception and returns False; the metadata deletion
is not rolled back (the collection stays deleted, manufacturing an
orphan), but the reported outcome is failure, not success. -/
theorem C4_reports_failure (s : SysState) (cname : String)
    (rmOk : String → Bool) (u : String)
    (hu : dictGetOpt (getCollectionUuidMapping s) (cleanName cname) = some u)
    (hne : u.isEmpty = false)
    (hex : dirPresent s u = true)
    (hrm : rmOk u = false) :
    delete_collection s cname true rmOk
      = { ret := false, metaDeleted := true, dirRemoved := false } := by
  simp [delete_collection, hu, hne, hex, hrm]

/-- C4 witness at the concrete healthy state. -/
theorem C4_witness :
    dictGetOpt (getCollectionUuidMapping exLive) (cleanName "docs") = some uA
    ∧ delete_collection exLive "docs" true (fun _ => false)
        = { ret := false, metaDeleted := true, dirRemoved := false } := by
  refine ⟨by decide, ?_⟩
  exact C4_reports_failure exLive "docs" (fun _ => false) uA
    (by decide) (by decide) (by decide) (by decide)

/-- C5 counterexample: two orphans uB and uC, removal of uB fails.  The
call returns (1, [uC]): N-1 successes, but the failing directory uB is
not named in the returned result (it appears only in the error log),
contradicting the claim that the result names it. -/
theorem C5_counterexample :
    (list_collections_with_uuids exTwoOrphans).2 = [uB, uC]
    ∧ rmFailOnB uB = false
    ∧ delete_orphaned_uuid_dirs exTwoOrphans rmFailOnB = (1, [uC])
    ∧ uB ∉ (delete_orphaned_uuid_dirs exTwoOrphans rmFailOnB).2
    ∧ orphanErrors exTwoOrphans rmFailOnB = [uB] := by
  decide

/-- C5 amended: when removal of exactly one orphan k fails, the call
does not abort: it still attempts and performs every other removal,
returns N-1 successes, the returned names are exactly the orphans
without k (so the failing directory is omitted from the result, being
recorded only in the error log, which is exactly [k]). -/
theorem C5_batch_isolation (s : SysState) (rmOk : String → Bool) (k : String)
    (hnd : (s.listing.map Prod.fst).Nodup)
    (hk : k ∈ (list_collections_with_uuids s).2)
    (hkf : rmOk k = false)
    (hrest : ∀ d ∈ (list_collections_with_uuids s).2, d ≠ k → rmOk d = true) :
    (delete_orphaned_uuid_dirs s rmOk).1 = (list_collections_with_uuids s).2.length - 1
    ∧ (delete_orphaned_uuid_dirs s rmOk).2 = (list_collections_with_uuids s).2.erase k
    ∧ k ∉ (delete_orphaned_uuid_dirs s rmOk).2
    ∧ orphanErrors s rmOk = [k] := by
  have hno : (list_collections_with_uuids s).2.Nodup := orphans_nodup s hnd
  have hfeq : (list_collections_with_uuids s).2.filter rmOk
      = (list_collections_with_uuids s).2.filter (fun d => !(d == k)) := by
    apply List.filter_congr
    intro d hd
    by_cases hdk : d = k
    · subst hdk
      simp [hkf]
    · simp [hdk, hrest d hd hdk]
  have h2 : (delete_orphaned_uuid_dirs s rmOk).2
      = (list_collections_with_uuids s).2.erase k := by
    rw [deleted_eq_filter, hfeq, ← nodup_erase_eq_filter _ hno k]
  have h1 : (delete_orphaned_uuid_dirs s rmOk).1
      = (list_collections_with_uuids s).2.length - 1 := by
    rw [count_eq_length, h2]
    exact List.length_erase_of_mem hk
  have h3 : k ∉ (delete_orphaned_uuid_dirs s rmOk).2 := by
    rw [h2]
    intro hmem
    exact ((nodup_mem_erase _ hno k k).mp hmem).2 rfl
  have h4 : orphanErrors s rmOk = [k] := by
    rw [errors_eq_filter]
    have hswap : (list_collections_with_uuids s).2.filter (fun d => !(rmOk d))
        = (list_collections_with_uuids s).2.filter (fun d => d == k) := by
      apply List.filter_congr
      intro d hd
      by_cases hdk : d = k
      · subst hdk
        simp [hkf]
      · simp [hdk, hrest d hd hdk]
    rw [hswap, nodup_filter_single _ hno k hk]
  exact ⟨h1, h2, h3, h4⟩

/-- C5 witness at the concrete two-orphan state with uB failing. -/
theorem C5_witness :
    uB ∈ (list_collections_with_uuids exTwoOrphans).2
    ∧ (delete_orphaned_uuid_dirs exTwoOrphans rmFailOnB).1
        = (list_collections_with_uuids exTwoOrphans).2.length - 1
    ∧ (delete_orphaned_uuid_dirs exTwoOrphans rmFailOnB).2
        = (list_collections_with_uuids exTwoOrphans).2.erase uB := by
  have h1 : (exTwoOrphans.listing.map Prod.fst).Nodup := by decide
  have h2 : uB ∈ (list_collections_with_uuids exTwoOrphans).2 := by decide
  have h3 : rmFailOnB uB = false := by decide
  have h4 : ∀ d ∈ (list_collections_with_uuids exTwoOrphans).2, d ≠ uB →
      rmFailOnB d = true := by decide
  refine ⟨h2, ?_, ?_⟩
  · exact (C5_batch_isolation exTwoOrphans rmFailOnB uB h1 h2 h3 h4).1
  · exact (C5_batch_isolation exTwoOrphans rmFailOnB uB h1 h2 h3 h4).2.1

/-- C6 counterexample: every entry selected, the lookup and the API
deletion succeed, rmtree raises, so the fallback per-entry delete runs
against the already-deleted collection and raises too; the outer
handler returns an error and the collection is left absent (final
contents none) — neither a reset collection with 0 entries (some [])
nor a collection missing only the selected entries, contradicting the
claimed two-outcome disjunction. -/
theorem C6_counterexample :
    delete_entries exLive "docs" ["e1"] ["e1"] oRmFail
      = (EntriesOutcome.errorReturn, none)
    ∧ (delete_entries exLive "docs" ["e1"] ["e1"] oRmFail).2 ≠ some []
    ∧ (delete_entries exLive "docs" ["e1"] ["e1"] oRmFail).2
        ≠ some (["e1"].filter (fun e => !((["e1"] : List String).contains e))) := by
  decide

theorem runEntryFallback_outcomes (present : Bool) (entries selected : List String)
    (ok : Bool) :
    runEntryFallback present entries selected ok
      = (.fallbackDone, some (entries.filter (fun e => !(selected.contains e))))
    ∨ ((runEntryFallback present entries selected ok).1 = .errorReturn
        ∧ ((runEntryFallback present entries selected ok).2 = some entries
            ∨ (runEntryFallback present entries selected ok).2 = none)) := by
  cases present <;> cases ok <;> simp [runEntryFallback]

/-- C6 amended: on the full-selection path, the outcome is a reset
collection with 0 entries, or (fallback succeeded) a collection missing
only the selected entries, or — when the fallback itself raises, in
particular because the collection was already deleted — an error return
with the collection left unchanged or absent. -/
theorem C6_reset_outcomes (s : SysState) (name : String)
    (entries selected : List String) (o : ResetOracles)
    (hsel : selected.isEmpty = false)
    (hall : entries.length ≤ selected.length) :
    delete_entries s name entries selected o = (.resetDone, some [])
    ∨ delete_entries s name entries selected o
        = (.fallbackDone, some (entries.filter (fun e => !(selected.contains e))))
    ∨ ((delete_entries s name entries selected o).1 = .errorReturn
        ∧ ((delete_entries s name entries selected o).2 = some entries
            ∨ (delete_entries s name entries selected o).2 = none)) := by
  have hde : delete_entries s name entries selected o
      = resetBranch s name entries selected o := by
    simp [delete_entries, hsel, hall]
  have hT := runEntryFallback_outcomes true entries selected o.entryDeleteOk
  have hF := runEntryFallback_outcomes false entries selected o.entryDeleteOk
  rw [hde]
  unfold resetBranch
  rcases hT with hT | hT <;> rcases hF with hF | hF <;>
    cases h1 : o.lookupOk <;> cases h2 : o.apiDeleteOk <;>
      cases h3 : o.rmOk <;> cases h4 : o.createOk <;>
        cases h5 : rmtreeAttempted s name <;>
          first
            | exact Or.inl rfl
            | exact Or.inr (Or.inl hT)
            | exact Or.inr (Or.inr hT)
            | exact Or.inr (Or.inl hF)
            | exact Or.inr (Or.inr hF)

/-- C6 witness: with every oracle succeeding the collection is reset. -/
theorem C6_witness :
    delete_entries exLive "docs" ["e1"] ["e1"] oAllOk = (.resetDone, some [])
    ∨ delete_entries exLive "docs" ["e1"] ["e1"] oAllOk
        = (.fallbackDone, some ((["e1"] : List String).filter
            (fun e => !((["e1"] : List String).contains e))))
    ∨ ((delete_entries exLive "docs" ["e1"] ["e1"] oAllOk).1 = .errorReturn
        ∧ ((delete_entries exLive "docs" ["e1"] ["e1"] oAllOk).2 = some ["e1"]
            ∨ (delete_entries exLive "docs" ["e1"] ["e1"] oAllOk).2 = none)) :=
  C6_reset_outcomes exLive "docs" ["e1"] ["e1"] oAllOk (by decide) (by decide)
